/-
Verification of the BMW N54/MSD80 flashing client (src/tools/n54flash.py).

This file gives a shallow embedding of the protocol-level functions of the
flasher — the seed/key algorithm, the ISO-TP segmentation and reassembly
helpers, the KWP request builders, the verify and backup loops, and the
VIN/checksum patcher — as executable Lean definitions over lists of natural
numbers (bytes are Nat values; 16-bit and 32-bit wraparound is explicit
`% 2 ^ w` / `&&& mask` arithmetic exactly as in the Python source), and
proves the specification claims about them.

Conventions:
  * `bytes` values become `List Nat`; Python slices `b[i:j]` become
    `(b.drop i).take (j - i)`.
  * A CAN frame is a `Frame` (arbitration id plus data bytes).
  * The frame bus is modelled by an explicit list of incoming frames
    (`bus.recv` pops the head, an empty list models a receive timeout)
    and by returning the list of frames a routine sends.
  * Python exceptions become `Except String` / dedicated error types;
    the error strings are the ones raised by the source.
  * `time.sleep` calls (the STmin pacing in `IsoTp._send`) have no
    observable effect on the data exchanged and are not modelled; the
    `st_min` variable itself is still threaded through faithfully.
-/
import Mathlib

/-! ### Constants (n54flash.py lines 52-84) -/

def CAN_ID_REQ : Nat := 0x6F1
def CAN_ID_RESP : Nat := 0x6F9
def POS_RESP : Nat := 0x40
def SID_SECURITY_ACCESS : Nat := 0x27
def SID_READ_MEMORY_BY_ADDR : Nat := 0x23
def SID_REQUEST_DOWNLOAD : Nat := 0x34
def FLASH_SIZE : Nat := 0x100000
def TRANSFER_SIZE_DEFAULT : Nat := 0x0800
def CAL_START : Nat := 0x010000
def CAL_SIZE : Nat := 0x040000
def CAL_END : Nat := CAL_START + CAL_SIZE

/-- `pos` helper (line 428): positive response id for a service id. -/
def pos (sid : Nat) : Nat := sid + POS_RESP

/-! ### Byte-string helpers

`beBytesToNat` is Python's `int.from_bytes(b, "big")`; `natToBe2` /
`natToBe4` are `n.to_bytes(2, "big")` / `n.to_bytes(4, "big")` (the
`OverflowError` cases are unreached at every use site, where the argument
is already reduced below 2^16 resp. 2^32). -/

def beBytesToNat (l : List Nat) : Nat := l.foldl (fun acc b => acc * 256 + b) 0

def natToBe2 (n : Nat) : List Nat := [n / 256, n % 256]

def natToBe4 (n : Nat) : List Nat :=
  [n / 0x1000000 % 256, n / 0x10000 % 256, n / 256 % 256, n % 256]

/-! ### Seed→key algorithm (lines 348-351) -/

/-- `calc_key_msd80` (line 348): 16-bit XOR algorithm used by MSD80/81. -/
def calc_key_msd80 (seed : Nat) : Nat := ((seed ^^^ 0x5A3C) + 0x7F1B) &&& 0xFFFF

/-- `Flasher.security_unlock` (lines 481-490), the key-sending step: from the
positive seed response it takes `seed = int.from_bytes(seed_r[2:4], "big")`,
computes the key, and sends the SecurityAccess payload
`bytes([0x02, key >> 8, key & 0xFF])` (key bytes high then low). -/
def security_unlock_key_payload (seed_r : List Nat) : List Nat :=
  let seed := beBytesToNat ((seed_r.drop 2).take 2)
  let key := calc_key_msd80 seed
  [0x02, key >>> 8, key &&& 0xFF]

/-! ### C2 -/

/-- C2: the seed-to-key function satisfies
`calc_key_msd80 s = ((s XOR 0x5A3C) + 0x7F1B) mod 2 ^ 16` (for every natural
seed, in particular for every seed in [0, 0xFFFF]); `calc_key_msd80 0x1234 =
0xC723`; and for the seed response `67 01 12 34` the key payload
`security_unlock` sends is `0x02` followed by the key bytes high-then-low,
`0xC7 0x23`. -/
theorem calc_key_msd80_spec :
    (∀ s : Nat, calc_key_msd80 s = ((s ^^^ 0x5A3C) + 0x7F1B) % 2 ^ 16) ∧
    calc_key_msd80 0x1234 = 0xC723 ∧
    security_unlock_key_payload [0x67, 0x01, 0x12, 0x34] = [0x02, 0xC7, 0x23] := by
  refine ⟨fun s => ?_, by decide, by decide⟩
  have h : (0xFFFF : Nat) = 2 ^ 16 - 1 := by norm_num
  rw [calc_key_msd80, h, Nat.and_pow_two_sub_one_eq_mod]

/-! ### CAN frames and the modelled bus

`Frame` is the dataclass of n54flash.py lines 92-95.  The `FrameBus` of the
source is modelled by an explicit queue: the frames a routine would obtain
from `bus.recv(timeout)` are supplied as a `List Frame` argument (popping
the head models one `recv`; an exhausted list models a timeout, i.e. Python
`None`), and the frames passed to `bus.send` are returned as a list. -/

structure Frame where
  arbitration_id : Nat
  data : List Nat
deriving DecidableEq, Repr

/-- `IsoTp._recv(raw=True)` (lines 400-405): pop one frame; a timeout or a
frame whose arbitration id differs from `rx_id` yields `none` (the wrong-id
frame is still consumed from the bus). -/
def isoTp_recvRaw (rxId : Nat) (incoming : List Frame) : Option (List Nat) × List Frame :=
  match incoming with
  | [] => (none, [])
  | msg :: rest => if msg.arbitration_id ≠ rxId then (none, rest) else (some msg.data, rest)

/-- The consecutive-frame loop of `IsoTp._send` (lines 383-398).  `rem` is
`payload[ptr:]`; `sn`, `bs`, `st_min` and `bs_cnt` are the loop variables of
the source.  Returns the consecutive frames sent and the unconsumed part of
the incoming queue, or the error raised.  The `time.sleep(st_min / 1000)`
pacing is the only elided effect. -/
def isoTp_sendCFs (txId rxId : Nat) (rem : List Nat) (sn bs st_min bs_cnt : Nat)
    (incoming : List Frame) : Except String (List Frame × List Frame) :=
  match rem with
  | [] => .ok ([], incoming)
  | r :: rs =>
    let chunk := (r :: rs).take 7
    let cf : Frame := ⟨txId, (0x20 ||| (sn &&& 0x0F)) :: chunk ++ List.replicate (7 - chunk.length) 0⟩
    let sn2 := (sn + 1) &&& 0x0F
    let bs_cnt2 := bs_cnt + 1
    if bs ≠ 0 ∧ bs ≤ bs_cnt2 then
      match isoTp_recvRaw rxId incoming with
      | (none, _) => .error "Missing FC mid-transfer"
      | (some fc, rest) =>
        match fc with
        | [] => .error "Missing FC mid-transfer"
        | b0 :: fcRest =>
          if b0 >>> 4 ≠ 0x3 then .error "Missing FC mid-transfer"
          else
            match fcRest with
            | bs2 :: st2 :: _ =>
              match isoTp_sendCFs txId rxId (rs.drop 6) sn2 bs2 st2 0 rest with
              | .ok (fs, rest2) => .ok (cf :: fs, rest2)
              | .error e => .error e
            | _ => .error "IndexError"
    else
      match isoTp_sendCFs txId rxId (rs.drop 6) sn2 bs st_min bs_cnt2 incoming with
      | .ok (fs, rest2) => .ok (cf :: fs, rest2)
      | .error e => .error e
termination_by rem.length
decreasing_by all_goals simp [List.length_drop]; omega

/-- `IsoTp._send` (lines 370-398).  Returns the CAN frames sent (in order)
and the unconsumed incoming frames, or the error raised.  A payload of at
most 7 bytes becomes one zero-padded Single frame; otherwise a First frame
with the 12-bit length and first 6 bytes is sent, a FlowControl frame is
awaited (error `"No FlowControl"` on timeout, wrong id, or non-FC PCI), and
the consecutive-frame loop runs with `ptr, sn, bs_cnt = 6, 1, 0`. -/
def isoTp_send (txId rxId : Nat) (payload : List Nat) (incoming : List Frame) :
    Except String (List Frame × List Frame) :=
  if payload.length ≤ 7 then
    .ok ([⟨txId, payload.length :: payload ++ List.replicate (7 - payload.length) 0⟩], incoming)
  else
    let total := payload.length
    let ff : Frame := ⟨txId, (0x10 ||| ((total >>> 8) &&& 0x0F)) :: (total &&& 0xFF) :: payload.take 6⟩
    match isoTp_recvRaw rxId incoming with
    | (none, _) => .error "No FlowControl"
    | (some fc, rest) =>
      match fc with
      | [] => .error "No FlowControl"
      | b0 :: fcRest =>
        if b0 >>> 4 ≠ 0x3 then .error "No FlowControl"
        else
          match fcRest with
          | bs :: st_min :: _ =>
            match isoTp_sendCFs txId rxId (payload.drop 6) 1 bs st_min 0 rest with
            | .ok (fs, rest2) => .ok (ff :: fs, rest2)
            | .error e => .error e
          | _ => .error "IndexError"

/-- The consecutive-frame reassembly loop of `IsoTp._recv` (lines 414-419):
while `len(buf) < total`, pop a frame; a timeout or wrong arbitration id
raises `"Consecutive frame timeout"`; otherwise all of `cf.data[1:]` is
appended.  On exit the buffer is truncated to `total`. -/
def isoTp_recvCFLoop (rxId total : Nat) (buf : List Nat) (incoming : List Frame) :
    Except String (Option (List Nat)) :=
  if total ≤ buf.length then .ok (some (buf.take total))
  else
    match incoming with
    | [] => .error "Consecutive frame timeout"
    | cf :: rest =>
      if cf.arbitration_id ≠ rxId then .error "Consecutive frame timeout"
      else isoTp_recvCFLoop rxId total (buf ++ cf.data.drop 1) rest
termination_by incoming.length
decreasing_by simp

/-- `IsoTp._recv` (raw=False, lines 400-420).  A timeout or a frame with the
wrong arbitration id returns `none` (Python `return None`); a Single frame
returns its declared bytes; a First frame answers with a `30 00 00 ...`
FlowControl (outgoing frames are not tracked here) and reassembles the
consecutive frames; any other top-level PCI returns `none`.  `data[0]` /
`data[1]` on a too-short frame would raise Python `IndexError`. -/
def isoTp_recv (rxId : Nat) (incoming : List Frame) : Except String (Option (List Nat)) :=
  match incoming with
  | [] => .ok none
  | msg :: rest =>
    if msg.arbitration_id ≠ rxId then .ok none
    else
      match msg.data with
      | [] => .error "IndexError"
      | b0 :: _ =>
        let ptype := b0 &&& 0xF0
        if ptype = 0x00 then .ok (some ((msg.data.drop 1).take (b0 &&& 0x0F)))
        else if ptype = 0x10 then
          match msg.data with
          | _ :: b1 :: _ =>
            let total := ((b0 &&& 0x0F) <<< 8) ||| b1
            let buf := (msg.data.drop 2).take 6
            isoTp_recvCFLoop rxId total buf rest
          | _ => .error "IndexError"
        else .ok none

/-- `iso_tp_roundtrip`: segment a payload with the tester-side `IsoTp._send`
(tx 0x6F1, rx 0x6F9), with the peer answering the First frame with the very
FlowControl frame `30 00 00 00 00 00 00 00` that the receive side of this
implementation produces (line 413), then reassemble the sent frames with the
ECU-side `IsoTp._recv` (which listens on 0x6F1). -/
def iso_tp_roundtrip (payload : List Nat) : Except String (Option (List Nat)) :=
  match isoTp_send CAN_ID_REQ CAN_ID_RESP payload
      [⟨CAN_ID_RESP, [0x30, 0x00, 0x00, 0x00, 0x00, 0x00, 0x00, 0x00]⟩] with
  | .error e => .error e
  | .ok (frames, _) => isoTp_recv CAN_ID_REQ frames
/-! ### Bit-arithmetic helpers used by the ISO-TP proofs -/

theorem nat_and_fifteen (n : Nat) : n &&& 0x0F = n % 16 := by
  have h : (0x0F : Nat) = 2 ^ 4 - 1 := by norm_num
  rw [h, Nat.and_pow_two_sub_one_eq_mod]

theorem nat_and_255 (n : Nat) : n &&& 0xFF = n % 256 := by
  have h : (0xFF : Nat) = 2 ^ 8 - 1 := by norm_num
  rw [h, Nat.and_pow_two_sub_one_eq_mod]

theorem nat_and_65535 (n : Nat) : n &&& 0xFFFF = n % 65536 := by
  have h : (0xFFFF : Nat) = 2 ^ 16 - 1 := by norm_num
  rw [h, Nat.and_pow_two_sub_one_eq_mod]

theorem nat_shiftRight8 (n : Nat) : n >>> 8 = n / 256 := by
  rw [Nat.shiftRight_eq_div_pow]

theorem low_nibble_pci (n : Nat) (h : n < 16) : n &&& 0xF0 = 0 ∧ n &&& 0x0F = n := by
  revert h; revert n; decide

theorem ff_pci_decode (hi : Nat) (h : hi < 16) :
    (0x10 ||| hi) &&& 0xF0 = 0x10 ∧ (0x10 ||| hi) &&& 0x0F = hi := by
  revert h; revert hi; decide

theorem shl8_or_eq (hi lo : Nat) (h2 : lo < 256) : (hi <<< 8) ||| lo = hi * 256 + lo := by
  have h : lo < 2 ^ 8 := by omega
  calc hi <<< 8 ||| lo = 2 ^ 8 * hi ||| lo := by rw [Nat.shiftLeft_eq, Nat.mul_comm]
    _ = 2 ^ 8 * hi + lo := (Nat.mul_add_lt_is_or h hi).symm
    _ = hi * 256 + lo := by ring

def cfFrameSpec (c : Nat) (rem : List Nat) (sn : Nat) : List Frame :=
  match rem with
  | [] => []
  | r :: rs =>
    ⟨c, (0x20 ||| (sn &&& 0x0F)) ::
        (r :: rs).take 7 ++ List.replicate (7 - ((r :: rs).take 7).length) 0⟩
      :: cfFrameSpec c (rs.drop 6) ((sn + 1) &&& 0x0F)
termination_by rem.length
decreasing_by simp [List.length_drop]; omega

theorem isoTp_sendCFs_bs_zero (txId rxId : Nat) (rem : List Nat) (sn st cnt : Nat)
    (incoming : List Frame) :
    isoTp_sendCFs txId rxId rem sn 0 st cnt incoming = .ok (cfFrameSpec txId rem sn, incoming) := by
  match rem with
  | [] => simp [isoTp_sendCFs, cfFrameSpec]
  | r :: rs =>
    rw [isoTp_sendCFs, cfFrameSpec]
    simp only [ne_eq, not_true_eq_false, false_and, if_false,
      isoTp_sendCFs_bs_zero txId rxId (rs.drop 6) ((sn + 1) &&& 0x0F) st (cnt + 1) incoming]
termination_by rem.length
decreasing_by simp [List.length_drop]; omega

theorem cfFrameSpec_length (c : Nat) (rem : List Nat) (sn : Nat) :
    (cfFrameSpec c rem sn).length = (rem.length + 6) / 7 := by
  match rem with
  | [] => simp [cfFrameSpec]
  | r :: rs =>
    rw [cfFrameSpec]
    simp only [List.length_cons, cfFrameSpec_length c (rs.drop 6) ((sn + 1) &&& 0x0F),
      List.length_drop]
    omega
termination_by rem.length
decreasing_by simp [List.length_drop]; omega

theorem cfFrameSpec_data_head (c : Nat) (rem : List Nat) (sn : Nat) :
    ∀ i f, (cfFrameSpec c rem sn)[i]? = some f →
      f.data.head? = some (0x20 ||| ((sn + i) % 16)) := by
  match rem with
  | [] => intro i f h; simp [cfFrameSpec] at h
  | r :: rs =>
    intro i f h
    rw [cfFrameSpec] at h
    match i with
    | 0 =>
      rw [List.getElem?_cons_zero] at h
      cases h
      simp [nat_and_fifteen]
    | i + 1 =>
      rw [List.getElem?_cons_succ] at h
      rw [cfFrameSpec_data_head c (rs.drop 6) ((sn + 1) &&& 0x0F) i f h]
      have hmod : (((sn + 1) &&& 0x0F) + i) % 16 = (sn + (i + 1)) % 16 := by
        rw [nat_and_fifteen]; omega
      rw [hmod]
termination_by rem.length
decreasing_by all_goals simp [List.length_drop]; omega

theorem isoTp_recvCFLoop_spec (rxId total : Nat) (buf rem : List Nat) (sn : Nat)
    (hne : rem ≠ []) (ht : buf.length + rem.length = total) :
    isoTp_recvCFLoop rxId total buf (cfFrameSpec rxId rem sn) = .ok (some (buf ++ rem)) := by
  match rem with
  | [] => exact absurd rfl hne
  | r :: rs =>
    rw [cfFrameSpec, isoTp_recvCFLoop]
    rw [if_neg (by simp at ht ⊢; omega)]
    simp only [ne_eq, not_true_eq_false, if_false, List.cons_append, List.drop_one,
      List.tail_cons]
    by_cases hlen : rs.length ≤ 6
    · have htake : (r :: rs).take 7 = r :: rs :=
        List.take_of_length_le (by simp; omega)
      have hdrop : rs.drop 6 = [] := List.drop_of_length_le hlen
      rw [htake, hdrop, cfFrameSpec.eq_1, isoTp_recvCFLoop]
      rw [if_pos (by simp at ht ⊢; omega)]
      rw [show buf ++ ((r :: rs) ++ List.replicate (7 - (r :: rs).length) 0)
          = (buf ++ (r :: rs)) ++ List.replicate (7 - (r :: rs).length) 0 by
        simp [List.append_assoc]]
      rw [List.take_left' (by simp at ht ⊢; omega)]
    · have htake : ((r :: rs).take 7).length = 7 := by
        simp [List.length_take]; omega
      rw [htake]
      simp only [Nat.sub_self, List.replicate_zero, List.append_nil]
      have hrec := isoTp_recvCFLoop_spec rxId total (buf ++ (r :: rs).take 7) (rs.drop 6)
        ((sn + 1) &&& 0x0F)
        (List.length_pos.mp (by simp [List.length_drop]; omega))
        (by simp [List.length_take, List.length_drop] at ht ⊢; omega)
      rw [hrec]
      rw [show (buf ++ (r :: rs).take 7) ++ rs.drop 6 = buf ++ r :: rs by
        rw [List.append_assoc]
        congr 1
        rw [List.take_cons (by norm_num)]
        simp [List.take_append_drop]]
termination_by rem.length
decreasing_by simp [List.length_drop]; omega

/-! ### C1 -/

/-- C1: ISO-TP round-trip identity.  For every payload P with
1 ≤ |P| ≤ 4095, segmenting P with `IsoTp._send` (the peer answering the
First frame with the FlowControl frame `30 00 00 00 00 00 00 00`) and
reassembling the produced frames with `IsoTp._recv` yields exactly P. -/
theorem iso_tp_roundtrip_id (P : List Nat) (h1 : 1 ≤ P.length) (h2 : P.length ≤ 4095) :
    iso_tp_roundtrip P = .ok (some P) := by
  by_cases hP : P.length ≤ 7
  · have hlow := low_nibble_pci P.length (by omega)
    simp only [iso_tp_roundtrip, isoTp_send, if_pos hP, isoTp_recv, List.cons_append,
      ne_eq, not_true_eq_false, if_false, hlow.1, hlow.2, if_true, List.drop_one,
      List.tail_cons]
    rw [List.take_left]
  · have h8 : 7 < P.length := by omega
    have hdiv : P.length / 256 < 16 := by omega
    have hsh : (P.length >>> 8) &&& 0x0F = P.length / 256 := by
      rw [nat_shiftRight8, nat_and_fifteen, Nat.mod_eq_of_lt hdiv]
    have hb0a : (0x10 ||| ((P.length >>> 8) &&& 0x0F)) &&& 0xF0 = 0x10 := by
      rw [hsh]; exact (ff_pci_decode _ hdiv).1
    have hb0b : (0x10 ||| ((P.length >>> 8) &&& 0x0F)) &&& 0x0F = P.length / 256 := by
      rw [hsh]; exact (ff_pci_decode _ hdiv).2
    have htot : (((P.length / 256) <<< 8)) ||| (P.length &&& 0xFF) = P.length := by
      rw [nat_and_255, shl8_or_eq _ _ (Nat.mod_lt _ (by norm_num))]
      omega
    simp only [iso_tp_roundtrip, isoTp_send, if_neg hP, isoTp_recvRaw, CAN_ID_RESP,
      ne_eq, not_true_eq_false, if_false]
    norm_num
    rw [isoTp_sendCFs_bs_zero]
    have hfc : (0x30 : Nat) >>> 4 = 3 := by decide
    simp only [hfc, reduceIte, isoTp_recv, CAN_ID_REQ, hb0a, hb0b]
    norm_num [htot, List.take_take, min_self]
    rw [isoTp_recvCFLoop_spec 1777 P.length (P.take 6) (P.drop 6) 1
      (by intro hh; have := congrArg List.length hh; simp at this; omega)
      (by simp; omega)]
    rw [List.take_append_drop]

/-- C1 witness: the round-trip theorem instantiated at the concrete 20-byte
payload `AA × 20` of spec scenario 3. -/
theorem iso_tp_roundtrip_id_witness :
    1 ≤ (List.replicate 20 0xAA : List Nat).length ∧
    (List.replicate 20 0xAA : List Nat).length ≤ 4095 ∧
    iso_tp_roundtrip (List.replicate 20 0xAA) = .ok (some (List.replicate 20 0xAA)) :=
  ⟨by decide, by decide, iso_tp_roundtrip_id (List.replicate 20 0xAA) (by decide) (by decide)⟩

/-! ### C4 -/

/-- C4: ISO-TP frame count.  A payload of at most 7 bytes is sent as exactly
one Single frame zero-padded to 8 bytes, whatever the incoming queue holds;
a payload with 7 < |P| ≤ 4095 (FlowControl `30 00 00 ...` supplied) is sent
as exactly one First frame carrying the 12-bit length and the first 6 bytes
followed by `cfs` Consecutive frames with `|cfs| = ⌈(|P|−6)/7⌉ =
(|P|−6+6)/7`, whose sequence-number nibbles start at 1 and wrap modulo
16 (the i-th consecutive frame has PCI byte `0x20 ||| ((1+i) % 16)`). -/
theorem isoTp_send_frame_count (P : List Nat) :
    (P.length ≤ 7 → ∀ incoming, isoTp_send CAN_ID_REQ CAN_ID_RESP P incoming
        = .ok ([⟨CAN_ID_REQ, P.length :: P ++ List.replicate (7 - P.length) 0⟩], incoming)) ∧
    (7 < P.length → P.length ≤ 4095 →
      ∃ cfs, isoTp_send CAN_ID_REQ CAN_ID_RESP P
            [⟨CAN_ID_RESP, [0x30, 0x00, 0x00, 0x00, 0x00, 0x00, 0x00, 0x00]⟩]
          = .ok (⟨CAN_ID_REQ,
              (0x10 ||| ((P.length >>> 8) &&& 0x0F)) :: (P.length &&& 0xFF) :: P.take 6⟩ :: cfs, [])
        ∧ cfs.length = (P.length - 6 + 6) / 7
        ∧ ∀ i f, cfs[i]? = some f → f.data.head? = some (0x20 ||| ((1 + i) % 16))) := by
  constructor
  · intro h7 incoming
    simp [isoTp_send, if_pos h7]
  · intro h8 h12
    refine ⟨cfFrameSpec CAN_ID_REQ (P.drop 6) 1, ?_, ?_, ?_⟩
    · have hfc : (0x30 : Nat) >>> 4 = 3 := by decide
      simp only [isoTp_send, if_neg (by omega : ¬P.length ≤ 7), isoTp_recvRaw,
        CAN_ID_RESP, ne_eq, not_true_eq_false, if_false]
      norm_num
      rw [isoTp_sendCFs_bs_zero]
      simp [hfc, CAN_ID_REQ]
    · rw [cfFrameSpec_length]
      simp [List.length_drop]
    · intro i f h
      exact cfFrameSpec_data_head CAN_ID_REQ (P.drop 6) 1 i f h

/-- C4 witness: the frame-count theorem instantiated at the 2-byte payload
`10 85` (spec scenario 2) and at the 20-byte payload `AA × 20` (scenario 3). -/
theorem isoTp_send_frame_count_witness :
    (isoTp_send CAN_ID_REQ CAN_ID_RESP [0x10, 0x85] []
      = .ok ([⟨CAN_ID_REQ, ([0x10, 0x85] : List Nat).length :: [0x10, 0x85] ++
          List.replicate (7 - ([0x10, 0x85] : List Nat).length) 0⟩], [])) ∧
    (∃ cfs, isoTp_send CAN_ID_REQ CAN_ID_RESP (List.replicate 20 0xAA)
          [⟨CAN_ID_RESP, [0x30, 0x00, 0x00, 0x00, 0x00, 0x00, 0x00, 0x00]⟩]
        = .ok (⟨CAN_ID_REQ,
            (0x10 ||| (((List.replicate 20 0xAA : List Nat).length >>> 8) &&& 0x0F)) ::
            ((List.replicate 20 0xAA : List Nat).length &&& 0xFF) ::
            (List.replicate 20 0xAA : List Nat).take 6⟩ :: cfs, [])
      ∧ cfs.length = ((List.replicate 20 0xAA : List Nat).length - 6 + 6) / 7
      ∧ ∀ i f, cfs[i]? = some f → f.data.head? = some (0x20 ||| ((1 + i) % 16))) :=
  ⟨(isoTp_send_frame_count [0x10, 0x85]).1 (by decide) [],
   (isoTp_send_frame_count (List.replicate 20 0xAA)).2 (by decide) (by decide)⟩

/-! ### C7 -/

/-- C7 counterexample: a received frame whose arbitration identifier is not
RxId (0x6F9) is NOT merely ignored.  With a wrong-identifier frame queued in
front of a perfectly valid Single frame on 0x6F9, `IsoTp._recv` returns
`None` at once (first conjunct) — whereas without the intruding frame the
very same receive returns the payload (second conjunct).  The wrong-id
frame therefore changes the outcome of the ongoing receive instead of the
receive continuing to wait on RxId. -/
theorem isoTp_recv_wrong_id_counterexample :
    isoTp_recv CAN_ID_RESP
        [⟨0x123, [0x02, 0x10, 0x85, 0x00, 0x00, 0x00, 0x00, 0x00]⟩,
         ⟨CAN_ID_RESP, [0x02, 0x50, 0x85, 0x00, 0x00, 0x00, 0x00, 0x00]⟩] = .ok none ∧
    isoTp_recv CAN_ID_RESP
        [⟨CAN_ID_RESP, [0x02, 0x50, 0x85, 0x00, 0x00, 0x00, 0x00, 0x00]⟩]
      = .ok (some [0x50, 0x85]) := by
  constructor
  · rfl
  · rfl

/-- C7 as amended: a wrong-identifier frame contributes no data to any
reassembled payload, but the receive does not keep waiting for a frame on
the expected RxId.  At top level `IsoTp._recv` consumes the frame and
returns `None` immediately (the exchange fails as on timeout), whatever
frames follow; and during consecutive-frame reassembly a wrong-identifier
frame aborts the receive with the `"Consecutive frame timeout"` error. -/
theorem isoTp_recv_wrong_id (f : Frame) (rest : List Frame) (rxId : Nat)
    (h : f.arbitration_id ≠ rxId) :
    isoTp_recv rxId (f :: rest) = .ok none ∧
    (∀ total buf : _, buf.length < total →
      isoTp_recvCFLoop rxId total buf (f :: rest) = .error "Consecutive frame timeout") := by
  constructor
  · simp [isoTp_recv, h]
  · intro total buf hb
    rw [isoTp_recvCFLoop, if_neg (by omega)]
    simp [h]

/-- C7 witness for the amended theorem: instantiated at a concrete frame on
the foreign identifier 0x123. -/
theorem isoTp_recv_wrong_id_witness :
    isoTp_recv CAN_ID_RESP [⟨0x123, [0x02, 0x10, 0x85, 0x00, 0x00, 0x00, 0x00, 0x00]⟩]
      = .ok none ∧
    (∀ total buf : _, buf.length < total →
      isoTp_recvCFLoop CAN_ID_RESP total buf
          [⟨0x123, [0x02, 0x10, 0x85, 0x00, 0x00, 0x00, 0x00, 0x00]⟩]
        = .error "Consecutive frame timeout") :=
  isoTp_recv_wrong_id ⟨0x123, [0x02, 0x10, 0x85, 0x00, 0x00, 0x00, 0x00, 0x00]⟩ [] CAN_ID_RESP
    (by decide)

/-! ### `Flasher.verify` (lines 579-585)

`verify` iterates `range(0, len(image), chunk)` (default stride 0x0400),
reads `min(chunk, len(image) - addr)` bytes per stride through
ReadMemoryByAddress, and raises `Verification mismatch at 0x{addr:06X}`
— `addr` being the stride base — at the first stride whose bytes differ
from `image[addr : addr + len(data)]`.  The ECU's flash contents are
modelled by a function `mem : Nat → Nat` giving the byte at each address
(the data a cooperative mock returns for each read); the raised address, if
any, is the `Option Nat` result. -/

def readBytes (mem : Nat → Nat) (addr n : Nat) : List Nat :=
  (List.range n).map (fun i => mem (addr + i))

/-- Python `range(0, stop, step)` for `step > 0`. -/
def rangeBy (stop step : Nat) : List Nat :=
  List.range' 0 ((stop + step - 1) / step) step

def verifyLoop (image : List Nat) (mem : Nat → Nat) (chunk : Nat) : List Nat → Option Nat
  | [] => none
  | addr :: rest =>
    let n := min chunk (image.length - addr)
    if readBytes mem addr n = (image.drop addr).take n then verifyLoop image mem chunk rest
    else some addr

def verify (image : List Nat) (mem : Nat → Nat) (chunk : Nat) : Option Nat :=
  verifyLoop image mem chunk (rangeBy image.length chunk)

/-- A stride of `verify` compares equal. -/
abbrev chunkOk (image : List Nat) (mem : Nat → Nat) (chunk addr : Nat) : Prop :=
  readBytes mem addr (min chunk (image.length - addr))
    = (image.drop addr).take (min chunk (image.length - addr))

theorem verifyLoop_append_ok (image : List Nat) (mem : Nat → Nat) (chunk : Nat)
    (l1 l2 : List Nat) (h : ∀ a ∈ l1, chunkOk image mem chunk a) :
    verifyLoop image mem chunk (l1 ++ l2) = verifyLoop image mem chunk l2 := by
  induction l1 with
  | nil => rfl
  | cons a l ih =>
    rw [List.cons_append, verifyLoop]
    rw [if_pos (h a (List.mem_cons_self a l))]
    exact ih (fun b hb => h b (List.mem_cons_of_mem a hb))

theorem verifyLoop_range'_some (image : List Nat) (mem : Nat → Nat) (chunk : Nat)
    (s n a : Nat) (h : verifyLoop image mem chunk (List.range' s n chunk) = some a) :
    (∃ i, i < n ∧ a = s + chunk * i) ∧ ¬ chunkOk image mem chunk a ∧
    (∀ b j, b = s + chunk * j → b < a → chunkOk image mem chunk b) := by
  induction n generalizing s with
  | zero => simp [verifyLoop] at h
  | succ n ih =>
    rw [List.range'_succ, verifyLoop] at h
    by_cases hok : chunkOk image mem chunk s
    · rw [if_pos hok] at h
      obtain ⟨⟨i, hi, hai⟩, hbad, hall⟩ := ih (s + chunk) h
      refine ⟨⟨i + 1, by omega, by rw [Nat.mul_succ]; omega⟩, hbad, ?_⟩
      intro b j hb hba
      match j with
      | 0 => simpa [hb] using hok
      | j + 1 => exact hall b j (by rw [Nat.mul_succ] at hb; omega) hba
    · rw [if_neg hok] at h
      cases h
      refine ⟨⟨0, by omega, by omega⟩, hok, ?_⟩
      intro b j hb hba
      omega

/-! ### C6 concrete scenario: image of zeros, ECU byte flipped at 0x12345 -/

/-- The programmed image of spec scenario 6: 1 MiB of `0x00`. -/
def cImage : List Nat := List.replicate FLASH_SIZE 0x00

/-- The mock ECU's flash contents: `cImage` with the single byte at address
0x12345 flipped to `0x01`. -/
def cMem (i : Nat) : Nat := if i = 0x12345 then 0x01 else 0x00

theorem cImage_length : cImage.length = FLASH_SIZE := by
  simp [cImage]

theorem chunkOk_away (a : Nat) (h1 : a + 0x400 ≤ 0x12345) (h2 : a + 0x400 ≤ FLASH_SIZE) :
    chunkOk cImage cMem 0x400 a := by
  have hmin : min 0x400 (cImage.length - a) = 0x400 := by
    rw [cImage_length]; rw [FLASH_SIZE] at h2 ⊢; omega
  show readBytes cMem a (min 0x400 (cImage.length - a))
      = (cImage.drop a).take (min 0x400 (cImage.length - a))
  rw [hmin, readBytes]
  have hmap : (List.range 0x400).map (fun i => cMem (a + i))
      = (List.range 0x400).map (fun _ => 0x00) := by
    apply List.map_congr_left
    intro i hi
    rw [List.mem_range] at hi
    rw [cMem, if_neg (by omega)]
  rw [hmap, List.map_const', List.length_range]
  rw [show cImage.drop a = List.replicate (FLASH_SIZE - a) 0x00 from by
    rw [cImage, List.drop_replicate]]
  rw [List.take_replicate]
  have hm2 : min 0x400 (FLASH_SIZE - a) = 0x400 := by
    rw [FLASH_SIZE] at h2 ⊢; omega
  rw [hm2]

theorem chunkBad_12000 : ¬ chunkOk cImage cMem 0x400 0x12000 := by
  intro hh
  have h : readBytes cMem 0x12000 (min 0x400 (cImage.length - 0x12000))
      = (cImage.drop 0x12000).take (min 0x400 (cImage.length - 0x12000)) := hh
  have hmin : min 0x400 (cImage.length - 0x12000) = 0x400 := by
    rw [cImage_length, FLASH_SIZE]; omega
  rw [hmin] at h
  have h2 := congrArg (fun l => l[0x345]?) h
  simp only [readBytes, List.getElem?_map] at h2
  rw [List.getElem?_range (by norm_num)] at h2
  rw [show cImage.drop 0x12000 = List.replicate (FLASH_SIZE - 0x12000) 0x00 from by
    rw [cImage, List.drop_replicate], List.take_replicate] at h2
  rw [List.getElem?_replicate_of_lt (by rw [FLASH_SIZE]; norm_num)] at h2
  simp only [Option.map_some'] at h2
  rw [show cMem (0x12000 + 0x345) = 0x01 from by rw [cMem]; norm_num] at h2
  simp at h2

theorem verify_flip_eq : verify cImage cMem 0x400 = some 0x12000 := by
  rw [verify, rangeBy, cImage_length]
  rw [show (FLASH_SIZE + 0x400 - 1) / 0x400 = 1024 from by rw [FLASH_SIZE]]
  rw [show (1024 : Nat) = 952 + 72 from rfl]
  rw [← List.range'_append 0 72 952 0x400]
  rw [verifyLoop_append_ok cImage cMem 0x400 _ _ (by
    intro a ha
    rw [List.mem_range'] at ha
    obtain ⟨i, hi, rfl⟩ := ha
    exact chunkOk_away _ (by omega) (by rw [FLASH_SIZE]; omega))]
  rw [show (0 + 0x400 * 72 : Nat) = 0x12000 from rfl]
  rw [show (952 : Nat) = 951 + 1 from rfl, List.range'_succ, verifyLoop]
  rw [if_neg chunkBad_12000]

/-- C6 counterexample: program image of 1 MiB of zeros; the mock ECU returns
it with the single byte at address 0x12345 flipped to 0x01 (conjuncts 3-4
pin the scenario down).  `Flasher.verify` then raises
`Verification mismatch at 0x012000` — the base address of the 0x0400-byte
stride containing the flip — and not address 0x12345 as claimed. -/
theorem verify_mismatch_counterexample :
    verify cImage cMem 0x400 = some 0x12000 ∧
    verify cImage cMem 0x400 ≠ some 0x12345 ∧
    cMem 0x12345 = 0x01 ∧
    cImage[0x12345]? = some 0x00 := by
  refine ⟨verify_flip_eq, ?_, by rw [cMem]; norm_num, ?_⟩
  · rw [verify_flip_eq]; simp
  · rw [cImage, List.getElem?_replicate_of_lt (by rw [FLASH_SIZE]; norm_num)]

/-- C6 as amended: `Flasher.verify` compares the ECU contents with the image
in 0x0400-byte strides and, on failure, reports the base address of the
first mismatching stride — a multiple of 0x0400, not the address of the
mismatching byte itself (0x12000, not 0x12345, in the flipped-byte
scenario).  All strides before the reported one compare equal. -/
theorem verify_reports_stride_base (image : List Nat) (mem : Nat → Nat) (a : Nat)
    (hlen : image.length = FLASH_SIZE)
    (h : verify image mem 0x400 = some a) :
    a % 0x400 = 0 ∧ a < FLASH_SIZE ∧
    ¬ chunkOk image mem 0x400 a ∧
    (∀ b, b % 0x400 = 0 → b < a → chunkOk image mem 0x400 b) := by
  rw [verify, rangeBy, hlen,
    show (FLASH_SIZE + 0x400 - 1) / 0x400 = 1024 from by rw [FLASH_SIZE]] at h
  obtain ⟨⟨i, hi, ha⟩, hbad, hall⟩ := verifyLoop_range'_some image mem 0x400 0 1024 a h
  refine ⟨by omega, by rw [FLASH_SIZE]; omega, hbad, ?_⟩
  intro b hb hba
  exact hall b (b / 0x400) (by omega) hba

/-- C6 witness for the amended theorem: instantiated at the flipped-byte
scenario, where the reported address is 0x12000. -/
theorem verify_reports_stride_base_witness :
    cImage.length = FLASH_SIZE ∧ verify cImage cMem 0x400 = some 0x12000 ∧
    ((0x12000 : Nat) % 0x400 = 0 ∧ (0x12000 : Nat) < FLASH_SIZE ∧
     ¬ chunkOk cImage cMem 0x400 0x12000 ∧
     (∀ b, b % 0x400 = 0 → b < 0x12000 → chunkOk cImage cMem 0x400 b)) :=
  ⟨cImage_length, verify_flip_eq,
   verify_reports_stride_base cImage cMem 0x12000 cImage_length verify_flip_eq⟩

/-! ### C5: `Flasher.request_download` (lines 521-529) and the block choice -/

/-- The response-parsing part of `Flasher.request_download`: reject a missing
or non-positive response (`"RequestDownload rejected"`); read
`max_len_len = resp[1]` (Python `IndexError` on a 1-byte response); if it is
non-zero, read the next `max_len_len` bytes `resp[2 : 2 + max_len_len]`
big-endian, else default to `TRANSFER_SIZE_DEFAULT` (0x0800). -/
def request_download_parse (resp : List Nat) : Except String Nat :=
  match resp with
  | [] => .error "RequestDownload rejected"
  | r0 :: rest =>
    if r0 ≠ pos SID_REQUEST_DOWNLOAD then .error "RequestDownload rejected"
    else
      match rest with
      | [] => .error "IndexError"
      | max_len_len :: rest2 =>
        .ok (if max_len_len ≠ 0 then beBytesToNat (rest2.take max_len_len)
             else TRANSFER_SIZE_DEFAULT)

/-- `Flasher.flash` line 567: `block = min(chunk_size, max_chunk)`. -/
def flash_block_size (chunk_size max_chunk : Nat) : Nat := min chunk_size max_chunk

/-- C5: on a positive response (first byte 0x74), `request_download` reads
`max_len_len` from byte 1 and the next `max_len_len` bytes big-endian as the
maximum block size, defaulting to 0x0800 when `max_len_len` is zero; the
big-endian reading satisfies `beBytesToNat (l ++ [b]) = 256 * beBytesToNat l
+ b`; and the flash workflow transfers with the effective block size
`min(chunk_size, max_chunk)`. -/
theorem request_download_spec :
    (∀ (mll : Nat) (rest2 : List Nat),
      request_download_parse (0x74 :: mll :: rest2)
        = .ok (if mll = 0 then 0x0800 else beBytesToNat (rest2.take mll))) ∧
    (∀ (b : Nat) (rest : List Nat), b ≠ 0x74 →
      request_download_parse (b :: rest) = .error "RequestDownload rejected") ∧
    (∀ (l : List Nat) (b : Nat), beBytesToNat (l ++ [b]) = 256 * beBytesToNat l + b) ∧
    (∀ chunk_size max_chunk : Nat,
      flash_block_size chunk_size max_chunk = min chunk_size max_chunk) := by
  refine ⟨?_, ?_, ?_, fun _ _ => rfl⟩
  · intro mll rest2
    simp only [request_download_parse, pos, SID_REQUEST_DOWNLOAD, POS_RESP]
    norm_num
    by_cases h : mll = 0
    · simp [h, TRANSFER_SIZE_DEFAULT]
    · simp [h]
  · intro b rest hb
    simp only [request_download_parse, pos, SID_REQUEST_DOWNLOAD, POS_RESP]
    rw [if_pos (by omega)]
  · intro l b
    rw [beBytesToNat, beBytesToNat, List.foldl_append]
    simp [Nat.mul_comm]

/-! ### C9: `Flasher.backup` (lines 551-560) has no session-state guard

The source `Flasher` (lines 462-465) holds only a bus and an `IsoTp`
instance — there is no `SessionState` field and no `SessionError` anywhere
in the module.  `backup` loops over `range(0, FLASH_SIZE, chunk)` calling
`read_block` directly; the KWP exchanges are modelled against an ECU oracle
`ecu : List Nat → Option (List Nat)` mapping each request payload to the
response payload `IsoTp.request` would return (`none` for a timeout, as
`_kwp` then yields `b""`).  Each run returns the list of KWP requests put on
the wire and the backup result. -/

/-- The KWP request `read_block` sends (lines 504-511):
`0x23, 0x24, addr (4 bytes BE), 0x24, length (4 bytes BE)`. -/
def read_block_request (addr length : Nat) : List Nat :=
  [SID_READ_MEMORY_BY_ADDR, 0x24] ++ natToBe4 addr ++ [0x24] ++ natToBe4 length

/-- `Flasher.read_block`: the `ValueError` length guard is checked before
anything is sent; then one request goes out and the response must begin with
the positive service id 0x63. -/
def read_block_run (ecu : List Nat → Option (List Nat)) (addr length : Nat) :
    List (List Nat) × Except String (List Nat) :=
  if length = 0 ∨ 0xFFFF < length then ([], .error "Length must be 1..65535 bytes")
  else
    let req := read_block_request addr length
    let resp := (ecu req).getD []
    ([req],
     if resp.head? = some (pos SID_READ_MEMORY_BY_ADDR) then .ok (resp.drop 1)
     else .error "ReadMemoryByAddress failed")

def backup_loop (ecu : List Nat → Option (List Nat)) (chunk : Nat) (buf : List Nat) :
    List Nat → List (List Nat) × Except String (List Nat)
  | [] => ([], .ok buf)
  | addr :: rest =>
    match read_block_run ecu addr (min chunk (FLASH_SIZE - addr)) with
    | (reqs, .error e) => (reqs, .error e)
    | (reqs, .ok data) =>
      match backup_loop ecu chunk (buf ++ data) rest with
      | (reqs2, res) => (reqs ++ reqs2, res)

/-- `Flasher.backup` with the default chunk of 0x0400: iterate
`range(0, FLASH_SIZE, chunk)` reading `min(chunk, FLASH_SIZE - addr)` bytes
each stride, accumulating the output. -/
def backup_run (ecu : List Nat → Option (List Nat)) (chunk : Nat) :
    List (List Nat) × Except String (List Nat) :=
  backup_loop ecu chunk [] (rangeBy FLASH_SIZE chunk)

/-- C9 counterexample: invoked on a fresh `Flasher` against an ECU that has
never granted a session or security access (the oracle answers nothing),
`backup` does NOT fail with any session error before touching the wire: it
issues the ReadMemoryByAddress request for address 0, length 0x400, and the
failure it then reports is the generic `"ReadMemoryByAddress failed"` — the
module defines no SessionError at all. -/
theorem backup_wrong_state_counterexample :
    backup_run (fun _ => none) 0x400
      = ([[0x23, 0x24, 0x00, 0x00, 0x00, 0x00, 0x24, 0x00, 0x00, 0x04, 0x00]],
         .error "ReadMemoryByAddress failed") := by
  rfl

/-- C9 as amended: the source `Flasher` keeps no `SessionState` and has no
`SessionError`; `backup` performs no wrong-state guard.  Whatever the ECU
oracle — in particular one reflecting an ECU that was never put in a
session or unlocked — the first thing `backup` does is issue the
ReadMemoryByAddress request for address 0 and length 0x400 on the wire. -/
theorem backup_no_state_guard (ecu : List Nat → Option (List Nat)) :
    (backup_run ecu 0x400).1.head?
      = some [0x23, 0x24, 0x00, 0x00, 0x00, 0x00, 0x24, 0x00, 0x00, 0x04, 0x00] := by
  rw [backup_run, rangeBy,
    show (FLASH_SIZE + 0x400 - 1) / 0x400 = 1024 from by rw [FLASH_SIZE],
    show (1024 : Nat) = 1023 + 1 from rfl, List.range'_succ, backup_loop]
  rw [show read_block_run ecu 0 (min 0x400 (FLASH_SIZE - 0))
      = ([read_block_request 0 0x400],
         if ((ecu (read_block_request 0 0x400)).getD []).head?
             = some (pos SID_READ_MEMORY_BY_ADDR)
         then .ok (((ecu (read_block_request 0 0x400)).getD []).drop 1)
         else .error "ReadMemoryByAddress failed") from by
    rw [read_block_run, if_neg (by rw [FLASH_SIZE]; omega)]
    rw [show min 0x400 (FLASH_SIZE - 0) = 0x400 from by rw [FLASH_SIZE]; omega]]
  by_cases h : ((ecu (read_block_request 0 0x400)).getD []).head?
      = some (pos SID_READ_MEMORY_BY_ADDR)
  · rw [if_pos h]
    simp [read_block_request, natToBe4, SID_READ_MEMORY_BY_ADDR]
  · rw [if_neg h]
    simp [read_block_request, natToBe4, SID_READ_MEMORY_BY_ADDR]

/-! ### VIN patch helpers (lines 593-617)

`patch_vin` copies the image into a fresh `bytearray` (the input object is
never mutated; the embedding is a pure function of the byte values), encodes
the 17-character VIN to its ASCII bytes (modelled directly as the byte list
`new_vin`; a non-ASCII character would raise `UnicodeEncodeError` in Python,
outside the byte-level model), locates the VIN in the CAL region and
overwrites it, then restores the CAL checksum. -/

/-- Python `bytearray` slice assignment `buf[start : start + len(repl)] =
repl` — every use site has `start + len(repl) ≤ len(buf)`, where the
assignment replaces exactly `len(repl)` bytes in place. -/
def setSlice (buf : List Nat) (start : Nat) (repl : List Nat) : List Nat :=
  buf.take start ++ repl ++ buf.drop (start + repl.length)

/-- `struct.iter_unpack(">H", data)`: the sequence of big-endian 16-bit
words of `data` (`struct.error` on odd length is unreachable here: every
use site passes an even-length buffer). -/
def words16 : List Nat → List Nat
  | hi :: lo :: rest => (hi * 256 + lo) :: words16 rest
  | _ => []

/-- `buf[CAL_START:CAL_END]` — the calibration region slice. -/
def calRegion (buf : List Nat) : List Nat :=
  (buf.drop CAL_START).take (CAL_END - CAL_START)

/-- `bytearray.find(sub)`: the lowest index at which `sub` occurs entirely
inside the buffer, `none` when it does not occur (Python returns −1). -/
def bfind (sub : List Nat) (l : List Nat) : Option Nat :=
  if sub.isPrefixOf l then some 0
  else
    match l with
    | [] => none
    | _ :: t => (bfind sub t).map (· + 1)

/-- `_fix_cal_checksum` (lines 609-617): sum the 16-bit big-endian words of
`cal[:-2]`, mask to 16 bits, and write the two's-complement correction
`(-checksum) & 0xFFFF = (65536 - checksum) % 65536` into the final two CAL
bytes, big-endian. -/
def fix_cal_checksum (buf : List Nat) : List Nat :=
  let cal := calRegion buf
  let checksum := (words16 (cal.take (cal.length - 2))).sum &&& 0xFFFF
  let corrected := (65536 - checksum) % 65536
  setSlice buf (CAL_END - 2) (natToBe2 corrected)

/-- The two failure modes of `patch_vin`:
`invalidVin` is `ValueError("VIN must be exactly 17 characters")` and
`vinNotFound` is `RuntimeError("Existing VIN not found in calibration
area")`. -/
inductive VinError where
  | invalidVin
  | vinNotFound
deriving DecidableEq, Repr

/-- `patch_vin` (lines 593-606). -/
def patch_vin (image : List Nat) (new_vin : List Nat) : Except VinError (List Nat) :=
  if new_vin.length ≠ 17 then .error .invalidVin
  else
    match bfind new_vin (calRegion image) with
    | none => .error .vinNotFound
    | some idx => .ok (fix_cal_checksum (setSlice image (CAL_START + idx) new_vin))

/-! ### Slice lemmas -/

theorem setSlice_length (buf repl : List Nat) (s : Nat) (h : s + repl.length ≤ buf.length) :
    (setSlice buf s repl).length = buf.length := by
  simp [setSlice, List.length_take, List.length_drop]
  omega

theorem setSlice_getElem? (buf repl : List Nat) (s i : Nat) (h : s + repl.length ≤ buf.length) :
    (setSlice buf s repl)[i]? =
      if i < s then buf[i]?
      else if i < s + repl.length then repl[i - s]?
      else buf[i]? := by
  have hts : (buf.take s).length = s := by simp [List.length_take]; omega
  rw [setSlice, List.append_assoc]
  by_cases h1 : i < s
  · rw [List.getElem?_append_left (by omega), List.getElem?_take_of_lt h1, if_pos h1]
  · rw [List.getElem?_append_right (by omega), hts]
    by_cases h2 : i < s + repl.length
    · rw [List.getElem?_append_left (by omega), if_neg h1, if_pos h2]
    · rw [List.getElem?_append_right (by omega), if_neg h1, if_neg h2, List.getElem?_drop]
      congr 1
      omega

theorem drop_append_le (l1 l2 : List Nat) (n : Nat) (h : n ≤ l1.length) :
    (l1 ++ l2).drop n = l1.drop n ++ l2 := by
  conv_lhs => rw [← List.take_append_drop n l1]
  rw [List.append_assoc, List.drop_left' (by simp [List.length_take]; omega)]

theorem take_append_le (l1 l2 : List Nat) (n : Nat) (h : n ≤ l1.length) :
    (l1 ++ l2).take n = l1.take n := by
  conv_lhs => rw [← List.take_append_drop n l1]
  rw [List.append_assoc, List.take_left' (by simp [List.length_take]; omega)]

theorem take_append_add (l1 l2 : List Nat) (k : Nat) :
    (l1 ++ l2).take (l1.length + k) = l1 ++ l2.take k := by
  induction l1 with
  | nil => simp
  | cons a t ih =>
    simp only [List.cons_append, List.length_cons]
    rw [show t.length + 1 + k = (t.length + k) + 1 by omega, List.take_succ_cons, ih]

/-! ### 16-bit word sum lemmas -/

theorem words16_append (l m : List Nat) (h : l.length % 2 = 0) :
    words16 (l ++ m) = words16 l ++ words16 m := by
  match l with
  | [] => simp [words16]
  | [x] => simp at h
  | hi :: lo :: rest =>
    simp only [List.cons_append, words16]
    congr 1
    exact words16_append rest m (by simp at h ⊢; omega)
termination_by l.length
decreasing_by simp; omega

theorem natToBe2_words16 (n : Nat) : words16 (natToBe2 n) = [n / 256 * 256 + n % 256] := rfl

theorem natToBe2_length (n : Nat) : (natToBe2 n).length = 2 := by
  rw [natToBe2]; rfl

/-- After `_fix_cal_checksum`, the 16-bit big-endian word sum of the whole
CAL region is zero modulo 2^16, for any 1 MiB buffer. -/
theorem fix_cal_checksum_sum (buf : List Nat) (h : buf.length = FLASH_SIZE) :
    (words16 (calRegion (fix_cal_checksum buf))).sum % 65536 = 0 := by
  have hlen : buf.length = 0x100000 := by rw [h, FLASH_SIZE]
  have hCE : CAL_END = 0x50000 := by norm_num [CAL_END, CAL_START, CAL_SIZE]
  set S := (words16 ((calRegion buf).take ((calRegion buf).length - 2))).sum with hS
  set c := (0x10000 - (S &&& 0xFFFF)) % 0x10000 with hc
  have hcb : c < 0x10000 := by rw [hc]; apply Nat.mod_lt; norm_num
  have hone : fix_cal_checksum buf = setSlice buf (CAL_END - 2) (natToBe2 c) := by
    rw [fix_cal_checksum]
  have hset : ∀ i, (setSlice buf (CAL_END - 2) (natToBe2 c))[i]? =
      if i < CAL_END - 2 then buf[i]?
      else if i < CAL_END - 2 + (natToBe2 c).length then (natToBe2 c)[i - (CAL_END - 2)]?
      else buf[i]? :=
    fun i => setSlice_getElem? buf (natToBe2 c) (CAL_END - 2) i
      (by rw [natToBe2_length, hCE, hlen]; omega)
  have hcrl : (calRegion buf).length = 0x40000 := by
    simp [calRegion, List.length_take, List.length_drop, hlen, hCE, CAL_START]
  have hcal_i : ∀ (x : List Nat) (j : Nat),
      (calRegion x)[j]? = if j < CAL_END - CAL_START then x[CAL_START + j]? else none := by
    intro x j
    rw [calRegion, List.getElem?_take, List.getElem?_drop]
  have hfixedcal : calRegion (fix_cal_checksum buf)
      = (calRegion buf).take (0x40000 - 2) ++ natToBe2 c := by
    rw [hone]
    apply List.ext_getElem?
    intro i
    rw [hcal_i, hset]
    rw [List.getElem?_append]
    rw [show ((calRegion buf).take (0x40000 - 2)).length = 0x40000 - 2 from by
      rw [List.length_take, hcrl]; omega]
    rw [List.getElem?_take, hcal_i]
    simp only [natToBe2_length]
    simp only [hCE, show CAL_START = 65536 from rfl]
    split_ifs
    all_goals try (exfalso; omega)
    · rfl
    · rw [show 65536 + i - (327680 - 2) = i - (262144 - 2) from by omega]
    · rw [List.getElem?_eq_none (by rw [natToBe2_length]; omega)]
  have hpre2 : (calRegion buf).take (0x40000 - 2)
      = (calRegion buf).take ((calRegion buf).length - 2) := by rw [hcrl]
  rw [hfixedcal, hpre2, words16_append _ _ (by simp [List.length_take, hcrl]),
    List.sum_append, natToBe2_words16, ← hS]
  simp only [List.sum_cons, List.sum_nil]
  rw [hc, nat_and_65535]
  omega

/-! ### `bytearray.find` lemmas -/

theorem bfind_found_match (sub : List Nat) :
    ∀ (l : List Nat) (i : Nat), bfind sub l = some i → sub.isPrefixOf (l.drop i) = true := by
  intro l
  induction l with
  | nil =>
    intro i h
    rw [bfind] at h
    by_cases hp : sub.isPrefixOf ([] : List Nat)
    · rw [if_pos hp] at h
      cases h
      exact hp
    · rw [if_neg hp] at h
      simp at h
  | cons a t ih =>
    intro i h
    rw [bfind] at h
    by_cases hp : sub.isPrefixOf (a :: t)
    · rw [if_pos hp] at h
      cases h
      exact hp
    · rw [if_neg hp] at h
      simp only [Option.map_eq_some'] at h
      obtain ⟨j, hj, rfl⟩ := h
      rw [List.drop_succ_cons]
      exact ih j hj

theorem bfind_index_le (sub : List Nat) :
    ∀ (l : List Nat) (i : Nat), bfind sub l = some i → i ≤ l.length := by
  intro l
  induction l with
  | nil =>
    intro i h
    rw [bfind] at h
    by_cases hp : sub.isPrefixOf ([] : List Nat)
    · rw [if_pos hp] at h; cases h; simp
    · rw [if_neg hp] at h; simp at h
  | cons a t ih =>
    intro i h
    rw [bfind] at h
    by_cases hp : sub.isPrefixOf (a :: t)
    · rw [if_pos hp] at h; cases h; simp
    · rw [if_neg hp] at h
      simp only [Option.map_eq_some'] at h
      obtain ⟨j, hj, rfl⟩ := h
      have := ih j hj
      simp
      omega

theorem bfind_first (sub : List Nat) :
    ∀ (l : List Nat) (i : Nat), bfind sub l = some i →
      ∀ j, j < i → ¬ (sub.isPrefixOf (l.drop j) = true) := by
  intro l
  induction l with
  | nil =>
    intro i h
    rw [bfind] at h
    by_cases hp : sub.isPrefixOf ([] : List Nat)
    · rw [if_pos hp] at h; cases h; omega
    · rw [if_neg hp] at h; simp at h
  | cons a t ih =>
    intro i h
    rw [bfind] at h
    by_cases hp : sub.isPrefixOf (a :: t)
    · rw [if_pos hp] at h; cases h; omega
    · rw [if_neg hp] at h
      simp only [Option.map_eq_some'] at h
      obtain ⟨k, hk, rfl⟩ := h
      intro j hj
      match j with
      | 0 => simpa using hp
      | j + 1 =>
        rw [List.drop_succ_cons]
        exact ih k hk j (by omega)

theorem bfind_bound (sub l : List Nat) (i : Nat) (hs : sub ≠ []) (h : bfind sub l = some i) :
    i + sub.length ≤ l.length := by
  have hp := bfind_found_match sub l i h
  rw [List.isPrefixOf_iff_prefix] at hp
  have h1 := hp.length_le
  rw [List.length_drop] at h1
  have h2 : l.drop i ≠ [] := by
    intro hnil
    rw [hnil] at hp
    have h4 := hp.length_le
    rw [List.length_nil, Nat.le_zero] at h4
    exact hs (List.length_eq_zero.mp h4)
  have h3 : i < l.length := by
    by_contra hcon
    exact h2 (List.drop_of_length_le (by omega))
  omega

/-! ### C3 -/

/-- C3: checksum restoration postcondition.  For every 1 MiB image
containing the 17-byte VIN in its CAL region `[0x10000, 0x50000)`,
`patch_vin` succeeds and returns an image whose CAL region, read as 16-bit
big-endian words, sums to 0 modulo 2^16. -/
theorem patch_vin_checksum (image vin : List Nat)
    (hlen : image.length = FLASH_SIZE) (hvin : vin.length = 17)
    (hfound : bfind vin (calRegion image) ≠ none) :
    ∃ out, patch_vin image vin = .ok out ∧ (words16 (calRegion out)).sum % 65536 = 0 := by
  obtain ⟨idx, hidx⟩ := Option.ne_none_iff_exists'.mp hfound
  refine ⟨fix_cal_checksum (setSlice image (CAL_START + idx) vin), ?_, ?_⟩
  · rw [patch_vin, if_neg (by omega), hidx]
  · apply fix_cal_checksum_sum
    rw [setSlice_length]
    · exact hlen
    · have hb := bfind_bound vin (calRegion image) idx (by intro hn; rw [hn] at hvin; simp at hvin) hidx
      have hcr : (calRegion image).length ≤ CAL_END - CAL_START := by
        simp [calRegion, List.length_take]
      rw [hvin] at hb
      rw [hlen, FLASH_SIZE]
      have : CAL_END - CAL_START = 0x40000 := by norm_num [CAL_END, CAL_START, CAL_SIZE]
      rw [this] at hcr
      have : CAL_START = 0x10000 := rfl
      omega

/-! ### C8 -/

/-- C8: `patch_vin` failure conditions.  It fails with `InvalidVin` iff the
VIN is not exactly 17 characters; given a 17-character VIN it fails with
`VinNotFound` iff the VIN byte sequence does not occur inside the CAL region
`[0x10000, 0x50000)`; otherwise it succeeds, overwriting the 17 bytes at the
first occurrence (the returned index is a genuine match and no earlier
offset matches) before restoring the checksum. -/
theorem patch_vin_error_conditions (image vin : List Nat) :
    (patch_vin image vin = .error .invalidVin ↔ vin.length ≠ 17) ∧
    (vin.length = 17 →
      (patch_vin image vin = .error .vinNotFound ↔ bfind vin (calRegion image) = none)) ∧
    (vin.length = 17 → ∀ idx, bfind vin (calRegion image) = some idx →
      patch_vin image vin = .ok (fix_cal_checksum (setSlice image (CAL_START + idx) vin)) ∧
      vin.isPrefixOf ((calRegion image).drop idx) = true ∧
      ∀ j, j < idx → ¬ (vin.isPrefixOf ((calRegion image).drop j) = true)) := by
  refine ⟨?_, ?_, ?_⟩
  · constructor
    · intro h
      by_contra hv
      rw [patch_vin, if_neg (by omega)] at h
      cases hfind : bfind vin (calRegion image) with
      | none => rw [hfind] at h; cases h
      | some idx => rw [hfind] at h; cases h
    · intro hv
      rw [patch_vin, if_pos hv]
  · intro hv
    constructor
    · intro h
      rw [patch_vin, if_neg (by omega)] at h
      cases hfind : bfind vin (calRegion image) with
      | none => rfl
      | some idx => rw [hfind] at h; cases h
    · intro hn
      rw [patch_vin, if_neg (by omega), hn]
  · intro hv idx hidx
    refine ⟨by rw [patch_vin, if_neg (by omega), hidx], bfind_found_match vin _ idx hidx,
      bfind_first vin _ idx hidx⟩

/-! ### C10 -/

/-- C10: frame condition of `patch_vin`.  For a 1 MiB image and a
17-character VIN found in CAL at offset `idx`, `patch_vin` returns a buffer
of the same length; every byte outside the CAL region `[0x10000, 0x50000)`
is unchanged, and inside CAL only the 17 bytes at the occurrence (absolute
offsets `[CAL_START + idx, CAL_START + idx + 17)`) and the final two
checksum bytes `[CAL_END - 2, CAL_END)` may differ.  The Python source
copies the input (`bytearray(image)`) and the embedding is a pure function,
so the input image itself is not mutated. -/
theorem patch_vin_frame (image vin : List Nat) (idx : Nat)
    (hlen : image.length = FLASH_SIZE) (hvin : vin.length = 17)
    (hidx : bfind vin (calRegion image) = some idx) :
    ∃ out, patch_vin image vin = .ok out ∧
      out.length = image.length ∧
      (∀ i, i < CAL_START ∨ CAL_END ≤ i → out[i]? = image[i]?) ∧
      (∀ i, ¬ (CAL_START + idx ≤ i ∧ i < CAL_START + idx + 17) →
            ¬ (CAL_END - 2 ≤ i ∧ i < CAL_END) → out[i]? = image[i]?) := by
  have hchE : CAL_END = 0x50000 := by norm_num [CAL_END, CAL_START, CAL_SIZE]
  have hchS : CAL_START = 0x10000 := rfl
  have hib : idx + 17 ≤ 0x40000 := by
    have hb := bfind_bound vin (calRegion image) idx
      (by intro hn; rw [hn] at hvin; simp at hvin) hidx
    have hcr : (calRegion image).length ≤ CAL_END - CAL_START := by
      simp [calRegion, List.length_take]
    rw [hvin] at hb
    rw [hchE, hchS] at hcr
    omega
  have hb1 : CAL_START + idx + vin.length ≤ image.length := by
    rw [hvin, hlen, FLASH_SIZE, hchS]; omega
  have hlen1 : (setSlice image (CAL_START + idx) vin).length = image.length :=
    setSlice_length _ _ _ hb1
  have hb2 : CAL_END - 2 + (natToBe2 ((0x10000 -
        ((words16 ((calRegion (setSlice image (CAL_START + idx) vin)).take
          ((calRegion (setSlice image (CAL_START + idx) vin)).length - 2))).sum &&& 0xFFFF))
          % 0x10000)).length
      ≤ (setSlice image (CAL_START + idx) vin).length := by
    rw [natToBe2_length, hlen1, hlen, FLASH_SIZE, hchE]; omega
  refine ⟨fix_cal_checksum (setSlice image (CAL_START + idx) vin),
    by rw [patch_vin, if_neg (by omega), hidx], ?_, ?_, ?_⟩
  · rw [fix_cal_checksum, setSlice_length _ _ _ hb2, hlen1]
  · intro i hi
    rw [fix_cal_checksum, setSlice_getElem? _ _ _ _ hb2, natToBe2_length]
    rw [setSlice_getElem? _ _ _ _ hb1]
    rw [hvin]
    split_ifs
    all_goals try (exfalso; simp only [hchE, hchS] at *; omega)
    all_goals rfl
  · intro i hi1 hi2
    rw [fix_cal_checksum, setSlice_getElem? _ _ _ _ hb2, natToBe2_length]
    rw [setSlice_getElem? _ _ _ _ hb1]
    rw [hvin]
    split_ifs
    all_goals try (exfalso; simp only [hchE, hchS] at *; omega)
    all_goals rfl

/-! ### Concrete witness inputs for the VIN patcher -/

/-- A concrete 17-character VIN, `"AAAAAAAAAAAAAAAAA"`. -/
def wVin : List Nat := List.replicate 17 0x41

/-- A concrete 1 MiB image whose CAL region starts with `wVin` followed by
ASCII `'0'` filler; BOOT and CODE are `'0'` filler as well. -/
def wImage : List Nat :=
  List.replicate 0x10000 0x30 ++
    (wVin ++ List.replicate (0x40000 - 17) 0x30) ++ List.replicate 0xB0000 0x30

theorem wVin_length : wVin.length = 17 := by rw [wVin, List.length_replicate]

theorem wImage_length : wImage.length = FLASH_SIZE := by
  rw [wImage, FLASH_SIZE]
  simp only [List.length_append, List.length_replicate, wVin_length]

theorem wCal_length : (wVin ++ List.replicate (0x40000 - 17) 0x30).length = 0x40000 := by
  simp only [List.length_append, List.length_replicate, wVin_length]

theorem calRegion_wImage : calRegion wImage = wVin ++ List.replicate (0x40000 - 17) 0x30 := by
  rw [calRegion, wImage]
  rw [show CAL_END - CAL_START = 0x40000 from by norm_num [CAL_END, CAL_START, CAL_SIZE]]
  rw [show CAL_START = 0x10000 from rfl]
  rw [List.append_assoc]
  rw [List.drop_left' (List.length_replicate 0x10000 0x30)]
  rw [List.take_left' wCal_length]

theorem bfind_wImage : bfind wVin (calRegion wImage) = some 0 := by
  rw [calRegion_wImage, bfind.eq_def, if_pos]
  rw [List.isPrefixOf_iff_prefix]
  exact List.prefix_append _ _

/-- An all-filler image: the VIN does not occur anywhere in it. -/
def wBlank : List Nat := List.replicate FLASH_SIZE 0x30

theorem bfind_wVin_replicate (n : Nat) : bfind wVin (List.replicate n 0x30) = none := by
  induction n with
  | zero =>
    rw [List.replicate_zero, bfind.eq_def]
    rw [if_neg (by decide)]
  | succ n ih =>
    rw [List.replicate_succ, bfind.eq_def]
    rw [if_neg (by simp [wVin, List.isPrefixOf_cons₂])]
    show (bfind wVin (List.replicate n 0x30)).map (· + 1) = none
    rw [ih]
    rfl

theorem calRegion_wBlank : calRegion wBlank = List.replicate 0x40000 0x30 := by
  rw [calRegion, wBlank, List.drop_replicate, List.take_replicate]
  rw [show min (CAL_END - CAL_START) (FLASH_SIZE - CAL_START) = 0x40000 from by
    norm_num [CAL_END, CAL_START, CAL_SIZE, FLASH_SIZE]]

/-- C3 witness: the checksum theorem instantiated at the concrete image
`wImage` and VIN `wVin`. -/
theorem patch_vin_checksum_witness :
    wImage.length = FLASH_SIZE ∧ wVin.length = 17 ∧
    bfind wVin (calRegion wImage) ≠ none ∧
    ∃ out, patch_vin wImage wVin = .ok out ∧ (words16 (calRegion out)).sum % 65536 = 0 :=
  ⟨wImage_length, wVin_length, by rw [bfind_wImage]; simp,
   patch_vin_checksum wImage wVin wImage_length wVin_length (by rw [bfind_wImage]; simp)⟩

/-- C8 witness: a 2-character VIN is rejected as invalid; on `wImage` the
VIN `wVin` is found at offset 0 and patching succeeds; on the blank image
the same VIN is not found and patching fails with `VinNotFound`. -/
theorem patch_vin_error_conditions_witness :
    patch_vin wImage [0x41, 0x42] = .error .invalidVin ∧
    (patch_vin wImage wVin
        = .ok (fix_cal_checksum (setSlice wImage (CAL_START + 0) wVin)) ∧
      wVin.isPrefixOf ((calRegion wImage).drop 0) = true ∧
      ∀ j, j < 0 → ¬ (wVin.isPrefixOf ((calRegion wImage).drop j) = true)) ∧
    patch_vin wBlank wVin = .error .vinNotFound :=
  ⟨(patch_vin_error_conditions wImage [0x41, 0x42]).1.mpr (by decide),
   (patch_vin_error_conditions wImage wVin).2.2 wVin_length 0 bfind_wImage,
   ((patch_vin_error_conditions wBlank wVin).2.1 wVin_length).mpr
     (by rw [calRegion_wBlank]; exact bfind_wVin_replicate _)⟩

/-- C10 witness: the frame-condition theorem instantiated at `wImage`,
`wVin`, offset 0. -/
theorem patch_vin_frame_witness :
    wImage.length = FLASH_SIZE ∧ wVin.length = 17 ∧
    bfind wVin (calRegion wImage) = some 0 ∧
    ∃ out, patch_vin wImage wVin = .ok out ∧
      out.length = wImage.length ∧
      (∀ i, i < CAL_START ∨ CAL_END ≤ i → out[i]? = wImage[i]?) ∧
      (∀ i, ¬ (CAL_START + 0 ≤ i ∧ i < CAL_START + 0 + 17) →
            ¬ (CAL_END - 2 ≤ i ∧ i < CAL_END) → out[i]? = wImage[i]?) :=
  ⟨wImage_length, wVin_length, bfind_wImage,
   patch_vin_frame wImage wVin 0 wImage_length wVin_length bfind_wImage⟩
